import Mathlib

/-!
Verification of `scripts/send_keys.py` (aws-ec2-user-provisioning).

The script loads user records from a YAML file, discovers per-user SSH
private keys in a directory, optionally reads Terraform outputs to enrich
emails with instance metadata, and emails each user their key over SMTP.

This file shallowly embeds the script: Python dicts become association
lists with last-write-wins insertion, fallible operations return
`Except String` (the error message standing for the raised exception),
`sys.exit(1)` becomes an `Except Nat` error carrying the exit code, and
the SMTP transport is abstracted as a record of capability booleans plus
a per-recipient send-success function.  Python's per-process string
`hash` is abstracted as an arbitrary function `String → Int`.
-/

namespace SendKeys

/-! ## Key filename marker (`'_private_key'`) and Python `str.replace` -/

/-- The filename marker used both by `load_keys_from_directory`
(`filename.endswith('_private_key')`, `filename.replace('_private_key', '')`)
and by `send_email` (`key_filename = f"{username}_private_key"`). -/
def markerStr : String := "_private_key"

/-- The marker as a character list. -/
def PL : List Char := markerStr.toList

/-- Boolean prefix test on character lists. -/
def isPre : List Char → List Char → Bool
  | [], _ => true
  | _ :: _, [] => false
  | a :: p, b :: l => a == b && isPre p l

/-- Boolean contiguous-occurrence test on character lists. -/
def occursIn (p : List Char) : List Char → Bool
  | [] => isPre p []
  | c :: t => isPre p (c :: t) || occursIn p t

/-- Boolean suffix test on character lists (reversed prefix test). -/
def isSuffixList (p l : List Char) : Bool := isPre p.reverse l.reverse

/-- Fuelled left-to-right scan deleting occurrences of the marker `PL`,
the semantics of Python's `filename.replace('_private_key', '')`
(`str.replace` scans left to right and continues after each removal). -/
def stripFuel : Nat → List Char → List Char
  | 0, l => l
  | n + 1, l =>
    if isPre PL l then stripFuel n (l.drop PL.length)
    else
      match l with
      | [] => []
      | c :: t => c :: stripFuel n t

/-- `l` with every occurrence of the marker deleted; fuel `l.length`
always suffices because each step consumes at least one character. -/
def stripMarker (l : List Char) : List Char := stripFuel l.length l

/-- `filename.replace('_private_key', '')` from `load_keys_from_directory`. -/
def usernameFromFilename (filename : String) : String :=
  String.mk (stripMarker filename.toList)

/-- `key_filename = f"{username}_private_key"` from `send_email`. -/
def attachmentFilename (username : String) : String := username ++ markerStr

/-- `filename.endswith('_private_key')` from `load_keys_from_directory`. -/
def endsWithMarker (s : String) : Bool := isSuffixList PL s.toList

/-! ## Python dicts as association lists -/

/-- Python dict assignment `m[k] = v`: update in place if the key is
present (keeping its position, as Python dicts do), else append. -/
def dictSet {α : Type} : List (String × α) → String → α → List (String × α)
  | [], k, v => [(k, v)]
  | (k2, v2) :: rest, k, v =>
    if k2 = k then (k2, v) :: rest else (k2, v2) :: dictSet rest k v

/-- Python dict lookup / membership test `k in m`, `m[k]`. -/
def dictLookup {α : Type} : List (String × α) → String → Option α
  | [], _ => none
  | (k2, v) :: rest, k => if k2 = k then some v else dictLookup rest k

/-! ## User records and `load_users` -/

/-- One entry of `users.yaml`'s `users` list.  `username` and `full_name`
are the required string fields; `email` is `none` when the record has no
`email` key, so that `user_info['email']` raises `KeyError`. -/
structure UserRec where
  username : String
  full_name : String
  email : Option String
  deriving Repr, DecidableEq

/-- The state of the users file as seen by `load_users`: missing file,
YAML parse error, or a parsed `users` list. -/
inductive UsersSource where
  | missing
  | unparsable
  | parsed (recs : List UserRec)
  deriving Repr, DecidableEq

/-- `load_users`: builds `{user['username']: user for user in data['users']}`
(last write wins on duplicate usernames); `sys.exit(1)` (modelled as
`Except.error` carrying the exit code) on a missing or unparsable file. -/
def load_users : UsersSource → Except Nat (List (String × UserRec))
  | .missing => .error 1
  | .unparsable => .error 1
  | .parsed recs => .ok (recs.foldl (fun m u => dictSet m u.username u) [])

/-! ## Key discovery and `load_keys_from_directory` -/

/-- The state of the keys directory: missing, or a listing of filenames
each with `some` content (readable) or `none` (read error, skipped). -/
inductive KeysSource where
  | dirMissing
  | dirFound (files : List (String × Option String))
  deriving Repr, DecidableEq

/-- The directory scan of `load_keys_from_directory`: each filename ending
in `'_private_key'` whose content is readable is indexed under the
username obtained by `filename.replace('_private_key', '')`. -/
def discoverKeys (files : List (String × Option String)) : List (String × String) :=
  files.foldl
    (fun m f =>
      if endsWithMarker f.1 then
        match f.2 with
        | some content => dictSet m (usernameFromFilename f.1) content
        | none => m
      else m)
    []

/-- `load_keys_from_directory`: `sys.exit(1)` when the directory is
missing or when the scan discovers zero keys. -/
def load_keys_from_directory : KeysSource → Except Nat (List (String × String))
  | .dirMissing => .error 1
  | .dirFound files =>
    let keys := discoverKeys files
    if keys.isEmpty then .error 1 else .ok keys

/-! ## Terraform outputs and `get_terraform_outputs` -/

/-- One value of the `instance_details` mapping: a well-formed record
(each field `none` when the key is absent or null) or a malformed entry
on which attribute access (`.get`) raises. -/
structure InstanceRec where
  instance_id : Option String
  private_ip : Option String
  public_ip : Option String
  instance_type : Option String
  region : Option String
  deriving Repr, DecidableEq

/-- An entry of `instance_details.values()`. -/
inductive InstEntry where
  | wf (r : InstanceRec)
  | malformed
  deriving Repr, DecidableEq

/-- Parsed Terraform outputs: `instance_details` is `none` when the key
is absent, else the ordered list of `instance_details.values()`. -/
structure TfOutputs where
  instance_details : Option (List InstEntry)
  deriving Repr, DecidableEq

/-- The outcome of running `terraform output -json`: subprocess failure,
JSON decode failure, or parsed outputs. -/
inductive TfSource where
  | cmdError
  | jsonError
  | ok (outputs : TfOutputs)
  deriving Repr, DecidableEq

/-- `get_terraform_outputs`: returns `None` on subprocess or JSON errors
(both caught), else the parsed outputs. -/
def get_terraform_outputs : TfSource → Option TfOutputs
  | .cmdError => none
  | .jsonError => none
  | .ok o => some o

/-! ## `get_instance_info_for_user` -/

/-- The four-field instance dict built by `get_instance_info_for_user`. -/
structure InstanceInfo where
  instance_id : String
  ip_address : String
  instance_type : String
  region : String
  deriving Repr, DecidableEq

/-- The all-`'Unknown'` sentinel dict. -/
def unknownInstanceInfo : InstanceInfo := ⟨"Unknown", "Unknown", "Unknown", "Unknown"⟩

/-- Lines 199-201:
`ip_address = instance.get('private_ip', instance.get('public_ip', 'Unknown'))`
then `if not ip_address or ip_address == '':`
`ip_address = instance.get('public_ip', 'Unknown')`. -/
def resolveIp (r : InstanceRec) : String :=
  let ip := r.private_ip.getD (r.public_ip.getD "Unknown")
  if ip == "" then r.public_ip.getD "Unknown" else ip

/-- The dict returned for a well-formed instance entry (lines 203-208). -/
def mkInstanceInfo (r : InstanceRec) : InstanceInfo :=
  ⟨r.instance_id.getD "Unknown", resolveIp r,
   r.instance_type.getD "Unknown", r.region.getD "Unknown"⟩

/-- `user_index = hash(username) % len(instances)` with Python's `%`
semantics (non-negative for a positive divisor), which Lean's `Int`
`%` (`Int.emod`) shares. -/
def pyIndex (hashFn : String → Int) (username : String) (len : Nat) : Nat :=
  ((hashFn username) % (len : Int)).toNat

/-- The `try` body of `get_instance_info_for_user`; `Except.error`
stands for the exceptions its `except` clause catches. -/
def get_instance_info_body (hashFn : String → Int) (username : String)
    (tf : Option TfOutputs) : Except String InstanceInfo :=
  match tf with
  | none => .ok unknownInstanceInfo
  | some o =>
    match o.instance_details with
    | none => .ok unknownInstanceInfo
    | some instances =>
      if instances.isEmpty then .ok unknownInstanceInfo
      else
        match instances[pyIndex hashFn username instances.length]? with
        | none => .error "IndexError"
        | some .malformed => .error "AttributeError"
        | some (.wf r) => .ok (mkInstanceInfo r)

/-- `get_instance_info_for_user`: the body with its catch-all `except`
clause, which turns any exception into the sentinel dict. -/
def get_instance_info_for_user (hashFn : String → Int) (username : String)
    (tf : Option TfOutputs) : InstanceInfo :=
  match get_instance_info_body hashFn username tf with
  | .ok i => i
  | .error _ => unknownInstanceInfo

/-! ## SMTP transport and `send_email` -/

/-- The constructor arguments of `EnhancedSSHKeyEmailer`. -/
structure SmtpConfig where
  host : String
  port : Nat
  user : Option String
  pass : Option String

/-- An abstract SMTP session: whether connecting, `starttls()` and
`login()` succeed, and whether `send_message` succeeds per recipient
(`false` models the call raising). -/
structure Transport where
  connectOk : Bool
  starttlsOk : Bool
  loginOk : Bool
  sendOk : String → Bool

/-- Python truthiness of an optional string (`None` and `''` falsy). -/
def truthyOpt : Option String → Bool
  | none => false
  | some s => !(s == "")

/-- Observable behaviour of one `send_email` call: its boolean return
value and whether `starttls()`, `login()` and `send_message` were
reached before the call returned. -/
structure SendTrace where
  result : Bool
  starttlsAttempted : Bool
  loginAttempted : Bool
  sendAttempted : Bool
  deriving Repr, DecidableEq

/-- `send_email` (lines 362-404): on port 25, connect and send with no
STARTTLS and no login; on any other port, connect, `starttls()`,
`login()` only if both credentials are truthy, then send.  The
enclosing `try`/`except` turns any raising step into a `False` return,
so a step that fails ends the call with `result := false`. -/
def send_email (cfg : SmtpConfig) (t : Transport) (toEmail : String) : SendTrace :=
  if cfg.port == 25 then
    if !t.connectOk then ⟨false, false, false, false⟩
    else ⟨t.sendOk toEmail, false, false, true⟩
  else
    if !t.connectOk then ⟨false, false, false, false⟩
    else if !t.starttlsOk then ⟨false, true, false, false⟩
    else if truthyOpt cfg.user && truthyOpt cfg.pass then
      if !t.loginOk then ⟨false, true, true, false⟩
      else ⟨t.sendOk toEmail, true, true, true⟩
    else ⟨t.sendOk toEmail, true, false, true⟩

/-! ## The per-user loop of `send_keys_to_users` -/

/-- What happened to one user in the loop: email sent, `send_email`
returned `False`, dry-run would-send, or no key found.  The first three
record the recipient and the instance dict used. -/
inductive Outcome where
  | sent (username recipient : String) (info : InstanceInfo)
  | failed (username recipient : String) (info : InstanceInfo)
  | dryRun (username recipient : String) (info : InstanceInfo)
  | skippedNoKey (username : String)
  deriving Repr, DecidableEq

/-- The username an outcome is about. -/
def outcomeUser : Outcome → String
  | .sent u _ _ => u
  | .failed u _ _ => u
  | .dryRun u _ _ => u
  | .skippedNoKey u => u

/-- The instance dict an outcome used, if any. -/
def outcomeInfo : Outcome → Option InstanceInfo
  | .sent _ _ i => some i
  | .failed _ _ i => some i
  | .dryRun _ _ i => some i
  | .skippedNoKey _ => none

/-- `recipient_email = test_email if test_email else user_info['email']`:
the user's `email` lookup raises `KeyError` when the record has no
`email` key and no truthy test email overrides it. -/
def pyRecipient (testEmail : Option String) (u : UserRec) : Except String String :=
  if truthyOpt testEmail then .ok (testEmail.getD "")
  else
    match u.email with
    | some e => .ok e
    | none => .error "KeyError: email"

/-- `create_email_content`, reduced to its only fallible step: resolving
the recipient (line 234), which evaluates `user_info['email']` when no
truthy test email is given.  The rendered HTML/plain bodies are pure
string templates no claim concerns and are omitted. -/
def create_email_content (testEmail : Option String) (u : UserRec) :
    Except String Unit :=
  (pyRecipient testEmail u).map fun _ => ()

/-- Per-run parameters of the loop: SMTP config, transport, string hash,
parsed Terraform outputs, test email, dry-run flag and the keys dict. -/
structure RunCtx where
  cfg : SmtpConfig
  tr : Transport
  hashFn : String → Int
  tf : Option TfOutputs
  testEmail : Option String
  dry : Bool
  keys : List (String × String)

/-- One iteration of the loop (lines 444-479), in source order: key
lookup (no key → skip outcome), instance info, `create_email_content`
(may raise), recipient resolution, then dry-run bookkeeping or
`send_email`.  Returns the outcome, the `success_count` increment and
the number of `send_email` calls made; `Except.error` is an uncaught
exception. -/
def processOne (ctx : RunCtx) (username : String) (u : UserRec) :
    Except String (Outcome × Nat × Nat) :=
  match dictLookup ctx.keys username with
  | none => .ok (.skippedNoKey username, 0, 0)
  | some _ =>
    match create_email_content ctx.testEmail u with
    | .error e => .error e
    | .ok _ =>
      match pyRecipient ctx.testEmail u with
      | .error e => .error e
      | .ok recipient =>
        if ctx.dry then
          .ok (.dryRun username recipient
                 (get_instance_info_for_user ctx.hashFn username ctx.tf), 1, 0)
        else if (send_email ctx.cfg ctx.tr recipient).result then
          .ok (.sent username recipient
                 (get_instance_info_for_user ctx.hashFn username ctx.tf), 1, 1)
        else
          .ok (.failed username recipient
                 (get_instance_info_for_user ctx.hashFn username ctx.tf), 0, 1)

/-- Accumulated state of the loop: outcomes in order, `success_count`,
number of `send_email` calls, and the uncaught exception (if any) that
aborted the loop. -/
structure LoopResult where
  outcomes : List Outcome
  successCount : Nat
  transportCalls : Nat
  err : Option String
  deriving Repr, DecidableEq

/-- The `for username, user_info in users.items()` loop.  An uncaught
exception aborts the loop: later users are not processed. -/
def runLoop (ctx : RunCtx) : List (String × UserRec) → LoopResult
  | [] => ⟨[], 0, 0, none⟩
  | (username, u) :: rest =>
    match processOne ctx username u with
    | .error e => ⟨[], 0, 0, some e⟩
    | .ok (o, s, c) =>
      let r := runLoop ctx rest
      ⟨o :: r.outcomes, s + r.successCount, c + r.transportCalls, r.err⟩

/-! ## `send_keys_to_users` end to end -/

/-- How a run ended: returned `success_count == total_count`, called
`sys.exit` during setup, or died on an uncaught exception. -/
inductive Termination where
  | completed (overallSuccess : Bool)
  | exited (code : Nat)
  | raised (msg : String)
  deriving Repr, DecidableEq

/-- Everything observable about one run of `send_keys_to_users`. -/
structure RunReport where
  transportCalls : Nat
  outcomes : List Outcome
  successCount : Nat
  totalCount : Nat
  termination : Termination
  deriving Repr, DecidableEq

/-- `send_keys_to_users` (lines 406-490): load users (may exit), load
keys (may exit), fetch Terraform outputs if a directory was given
(never fatal), run the per-user loop, and return
`success_count == total_count` where `total_count = len(users)`. -/
def send_keys_to_users (cfg : SmtpConfig) (t : Transport) (hashFn : String → Int)
    (usersSrc : UsersSource) (keysSrc : KeysSource) (tfSrc : Option TfSource)
    (testEmail : Option String) (dry : Bool) : RunReport :=
  match load_users usersSrc with
  | .error c => ⟨0, [], 0, 0, .exited c⟩
  | .ok users =>
    match load_keys_from_directory keysSrc with
    | .error c => ⟨0, [], 0, 0, .exited c⟩
    | .ok keys =>
      let tf := tfSrc.bind get_terraform_outputs
      let r := runLoop ⟨cfg, t, hashFn, tf, testEmail, dry, keys⟩ users
      match r.err with
      | some e => ⟨r.transportCalls, r.outcomes, r.successCount, users.length, .raised e⟩
      | none =>
        ⟨r.transportCalls, r.outcomes, r.successCount, users.length,
         .completed (r.successCount == users.length)⟩

/-- The process exit status implied by a report: `sys.exit(code)` during
setup, 1 on an uncaught exception, else `main`'s `sys.exit(1)` when
`send_keys_to_users` returned `False` and 0 when it returned `True`. -/
def exitCode (rep : RunReport) : Nat :=
  match rep.termination with
  | .completed ok => if ok then 0 else 1
  | .exited c => c
  | .raised _ => 1

/-! ## Counting helpers for the batch-result claims -/

/-- Whether an outcome is `Sent` or `DryRun` (the two cases that
increment `success_count`). -/
def isSentOrDry : Outcome → Bool
  | .sent _ _ _ => true
  | .dryRun _ _ _ => true
  | _ => false

/-- Number of `Sent`/`DryRun` outcomes in a list. -/
def countSentOrDry (os : List Outcome) : Nat := (os.filter isSentOrDry).length

/-- Whether an outcome is a dry-run outcome for the given username. -/
def isDryFor (username : String) : Outcome → Bool
  | .dryRun u _ _ => u == username
  | _ => false

/-- Number of dry-run outcomes for the given username. -/
def countDryFor (username : String) (os : List Outcome) : Nat :=
  (os.filter (isDryFor username)).length

/-- Number of loaded users that have a matching key. -/
def usersWithKeyCount (users : List (String × UserRec))
    (keys : List (String × String)) : Nat :=
  (users.filter (fun p => (dictLookup keys p.1).isSome)).length

/-! ## Spec-side formulas for refinement comparison -/

/-- The ip rule as the spec states it: the private IP when present and
non-empty, else the public IP when present and non-empty, else
`"Unknown"`.  Written from the spec's words, to be compared with
`resolveIp`, the embedding of the source. -/
def specResolveIp (r : InstanceRec) : String :=
  if (r.private_ip.getD "") ≠ "" then r.private_ip.getD ""
  else if (r.public_ip.getD "") ≠ "" then r.public_ip.getD ""
  else "Unknown"

/-- The ip rule the source actually implements: the private IP when
present and non-empty; otherwise the public IP's value whenever the
`public_ip` key is present — even when that value is empty — and
`"Unknown"` only when the key is absent. -/
def resolveIpAmended (r : InstanceRec) : String :=
  if (r.private_ip.getD "") ≠ "" then r.private_ip.getD ""
  else
    match r.public_ip with
    | some p => p
    | none => "Unknown"

/-! ## Concrete fixtures used by counterexamples and witnesses -/

/-- A port-25 configuration with no credentials. -/
def cfg25 : SmtpConfig := ⟨"mailhost", 25, none, none⟩

/-- An authenticated-submission-port configuration. -/
def cfg587 : SmtpConfig := ⟨"smtp.example.com", 587, some "user", some "secret"⟩

/-- A fully capable transport. -/
def trOk : Transport := ⟨true, true, true, fun _ => true⟩

/-- A reachable transport that does not support STARTTLS. -/
def trNoTls : Transport := ⟨true, false, true, fun _ => true⟩

/-- A concrete stand-in for Python's per-process string hash. -/
def hash0 : String → Int := fun _ => 0

/-- Two-user dict whose first user has a key but no `email` field. -/
def c5users : List (String × UserRec) :=
  [("bob", ⟨"bob", "Bob B", none⟩), ("alice", ⟨"alice", "Alice A", some "a@x.com"⟩)]

/-- Keys for both users of `c5users`. -/
def c5keys : List (String × String) := [("bob", "KB"), ("alice", "KA")]

/-- Dry-run context over `c5keys` with no test email. -/
def c5ctx : RunCtx := ⟨cfg25, trOk, hash0, none, none, true, c5keys⟩

/-- One well-formed instance entry. -/
def c7entries : List InstEntry :=
  [.wf ⟨some "i-0abc", some "10.0.0.1", none, some "t3.micro", some "us-east-1"⟩]

/-- Parsed users file with one keyed, emailed user. -/
def c3wUsers : UsersSource := .parsed [⟨"alice", "Alice A", some "a@x.com"⟩]

/-- Keys directory listing matching `c3wUsers`. -/
def c3wKeys : KeysSource := .dirFound [("alice_private_key", some "K")]

/-! ## Lemmas about the marker-stripping scan -/

theorem isPre_iff_take : ∀ (p l : List Char), isPre p l = true ↔ l.take p.length = p
  | [], l => by simp [isPre]
  | a :: p, [] => by simp [isPre]
  | a :: p, b :: l => by
    simp only [isPre, List.length_cons, List.take_succ_cons, Bool.and_eq_true, beq_iff_eq]
    constructor
    · rintro ⟨h1, h2⟩
      rw [h1, (isPre_iff_take p l).mp h2]
    · intro h
      have h1 := List.head_eq_of_cons_eq h
      have h2 := List.tail_eq_of_cons_eq h
      exact ⟨h1.symm, (isPre_iff_take p l).mpr h2⟩

theorem occursIn_of_isPre {p l : List Char} (h : isPre p l = true) :
    occursIn p l = true := by
  cases l with
  | nil => simpa [occursIn] using h
  | cons c t => simp [occursIn, h]

theorem stripFuel_nil : ∀ n, stripFuel n [] = []
  | 0 => rfl
  | n + 1 => by
    have hpre : isPre PL [] = false := by decide
    simp [stripFuel, hpre]

/-- The marker has no nontrivial period: no proper nonempty prefix of it,
put in front of it, leaves the marker as a prefix of the whole. -/
theorem marker_border_free :
    ∀ k, k < 12 → 0 < k → isPre PL (PL.take k ++ PL) = false := by decide

theorem marker_length : PL.length = 12 := by decide

/-- If the marker does not occur inside a nonempty `u`, it is not a
prefix of `u ++ PL` either: a match would either start inside `u`
(an occurrence) or overlap the boundary (a nontrivial period). -/
theorem not_isPre_marker_append {u : List Char} (hne : u ≠ [])
    (hocc : occursIn PL u = false) : isPre PL (u ++ PL) = false := by
  by_contra hcon
  rw [Bool.not_eq_false] at hcon
  have htake : (u ++ PL).take PL.length = PL := (isPre_iff_take PL (u ++ PL)).mp hcon
  by_cases hlen : PL.length ≤ u.length
  · rw [List.take_append_of_le_length hlen] at htake
    have hpre : isPre PL u = true := (isPre_iff_take PL u).mpr htake
    rw [occursIn_of_isPre hpre] at hocc
    exact Bool.true_eq_false.mp hocc
  · push_neg at hlen
    have hk0 : 0 < u.length := List.length_pos.mpr hne
    rw [List.take_append_eq_append_take,
        List.take_of_length_le (Nat.le_of_lt hlen)] at htake
    have hu : PL.take u.length = u := by
      have h2 := congrArg (List.take u.length) htake
      rw [List.take_append_of_le_length (Nat.le_refl _), List.take_length] at h2
      exact h2.symm
    rw [← hu] at hcon
    rw [marker_border_free u.length (marker_length ▸ hlen) hk0] at hcon
    exact Bool.false_eq_true.mp hcon

/-- With enough fuel, the deleting scan applied to `u ++ PL` (for `u`
free of the marker) removes exactly the final marker. -/
theorem stripFuel_append :
    ∀ (u : List Char) (n : Nat), occursIn PL u = false →
      u.length + PL.length ≤ n → stripFuel n (u ++ PL) = u := by
  intro u
  induction u with
  | nil =>
    intro n _ hn
    cases n with
    | zero => simp [marker_length] at hn
    | succ m =>
      have hpre : isPre PL PL = true := by decide
      simp only [List.nil_append, stripFuel, hpre, if_true, List.drop_length]
      exact stripFuel_nil m
  | cons c u0 ih =>
    intro n hocc hn
    have hocc2 : isPre PL (c :: u0) = false ∧ occursIn PL u0 = false := by
      simpa [occursIn, Bool.or_eq_false_iff] using hocc
    cases n with
    | zero => simp [marker_length] at hn
    | succ m =>
      have hpre : isPre PL ((c :: u0) ++ PL) = false :=
        not_isPre_marker_append (by simp) hocc
      rw [List.cons_append] at hpre ⊢
      simp only [stripFuel, hpre, if_false]
      have hm : u0.length + PL.length ≤ m := by
        simp only [List.length_cons] at hn
        omega
      rw [ih m hocc2.2 hm]
      simp

/-- `stripMarker` on `u ++ PL` has exactly enough fuel. -/
theorem stripMarker_append (u : List Char) (hocc : occursIn PL u = false) :
    stripMarker (u ++ PL) = u := by
  unfold stripMarker
  exact stripFuel_append u _ hocc (by simp)

/-! ## Lemmas about the per-user loop -/

/-- Inversion of a successful `processOne` call: the outcome names the
processed user, the `success_count` increment matches Sent/DryRun, the
`send_email` call count matches the dry/no-key flags, the instance dict
recorded is the resolver's, and with the dry flag set a user with a key
yields a dry-run outcome. -/
theorem processOne_ok_inv {ctx : RunCtx} {username : String} {u : UserRec}
    {o : Outcome} {s c : Nat}
    (h : processOne ctx username u = .ok (o, s, c)) :
    outcomeUser o = username ∧
    s = (if isSentOrDry o then 1 else 0) ∧
    c = (if ctx.dry then 0
         else if (dictLookup ctx.keys username).isSome then 1 else 0) ∧
    (outcomeInfo o = none ∨
      outcomeInfo o = some (get_instance_info_for_user ctx.hashFn username ctx.tf)) ∧
    (ctx.dry = true → (dictLookup ctx.keys username).isSome = true →
      ∃ recipient info, o = .dryRun username recipient info) := by
  unfold processOne at h
  split at h
  · rename_i hk
    simp only [Except.ok.injEq, Prod.mk.injEq] at h
    obtain ⟨ho, hs, hc⟩ := h
    subst ho hs hc
    refine ⟨rfl, by simp [isSentOrDry, outcomeUser], by simp [hk], by simp [outcomeInfo], ?_⟩
    intro _ hsome
    rw [hk] at hsome
    simp at hsome
  · rename_i hk
    split at h
    · exact absurd h (by simp)
    · split at h
      · exact absurd h (by simp)
      · split at h
        · rename_i hdry
          simp only [Except.ok.injEq, Prod.mk.injEq] at h
          obtain ⟨ho, hs, hc⟩ := h
          subst ho hs hc
          exact ⟨rfl, by simp [isSentOrDry], by simp [hdry],
            by simp [outcomeInfo], fun _ _ => ⟨_, _, rfl⟩⟩
        · rename_i hdry
          split at h
          · simp only [Except.ok.injEq, Prod.mk.injEq] at h
            obtain ⟨ho, hs, hc⟩ := h
            subst ho hs hc
            refine ⟨rfl, by simp [isSentOrDry], by simp [hdry, hk],
              by simp [outcomeInfo], fun hd => absurd hd (by simp [hdry])⟩
          · simp only [Except.ok.injEq, Prod.mk.injEq] at h
            obtain ⟨ho, hs, hc⟩ := h
            subst ho hs hc
            refine ⟨rfl, by simp [isSentOrDry], by simp [hdry, hk],
              by simp [outcomeInfo], fun hd => absurd hd (by simp [hdry])⟩

/-- A dry-run outcome for `username` names `username`. -/
theorem isDryFor_user {n : String} {o : Outcome} (h : isDryFor n o = true) :
    outcomeUser o = n := by
  cases o with
  | dryRun u r i =>
    simp only [isDryFor, beq_iff_eq] at h
    simp [outcomeUser, h]
  | sent u r i => simp [isDryFor] at h
  | failed u r i => simp [isDryFor] at h
  | skippedNoKey u => simp [isDryFor] at h

/-- In dry-run mode the loop makes no `send_email` call, aborted or not. -/
theorem runLoop_dry_calls (ctx : RunCtx) (hdry : ctx.dry = true) :
    ∀ users, (runLoop ctx users).transportCalls = 0 := by
  intro users
  induction users with
  | nil => rfl
  | cons p rest ih =>
    obtain ⟨username, u⟩ := p
    simp only [runLoop]
    cases hp : processOne ctx username u with
    | error e => rfl
    | ok v =>
      obtain ⟨o, s, c⟩ := v
      have hc := (processOne_ok_inv hp).2.2.1
      rw [hdry] at hc
      simp only [if_true] at hc
      simp [hc, ih]

/-- On an error-free loop, `success_count` counts exactly the
Sent/DryRun outcomes. -/
theorem runLoop_success_counts (ctx : RunCtx) :
    ∀ users, (runLoop ctx users).err = none →
      (runLoop ctx users).successCount = countSentOrDry (runLoop ctx users).outcomes := by
  intro users
  induction users with
  | nil => intro _; rfl
  | cons p rest ih =>
    obtain ⟨username, u⟩ := p
    simp only [runLoop]
    cases hp : processOne ctx username u with
    | error e => intro herr; simp at herr
    | ok v =>
      obtain ⟨o, s, c⟩ := v
      intro herr
      simp only at herr
      have hs := (processOne_ok_inv hp).2.1
      have hrec := ih herr
      simp only [countSentOrDry, List.filter_cons] at hrec ⊢
      cases hso : isSentOrDry o with
      | true =>
        simp [hso] at hs ⊢
        omega
      | false =>
        simp [hso] at hs ⊢
        omega

/-- A username absent from the processed list gets no dry-run outcome. -/
theorem runLoop_dry_count_zero (ctx : RunCtx) (username : String) :
    ∀ users, username ∉ users.map Prod.fst →
      countDryFor username (runLoop ctx users).outcomes = 0 := by
  intro users
  induction users with
  | nil => intro _; rfl
  | cons p rest ih =>
    obtain ⟨v, u⟩ := p
    intro hmem
    simp only [List.map_cons, List.mem_cons] at hmem
    push_neg at hmem
    simp only [runLoop]
    cases hp : processOne ctx v u with
    | error e => rfl
    | ok w =>
      obtain ⟨o, s, c⟩ := w
      have huser := (processOne_ok_inv hp).1
      have hnotdry : isDryFor username o = false := by
        cases hdf : isDryFor username o with
        | false => rfl
        | true =>
          exact absurd (huser ▸ isDryFor_user hdf).symm hmem.1
      have hrec := ih hmem.2
      simp only [countDryFor, List.filter_cons] at hrec ⊢
      simp [hnotdry, hrec]

/-- On an error-free dry run over a duplicate-free user dict, a user
with a key gets exactly one dry-run outcome. -/
theorem runLoop_dry_count_one (ctx : RunCtx) (hdry : ctx.dry = true)
    (username : String) (u : UserRec)
    (hkey : (dictLookup ctx.keys username).isSome = true) :
    ∀ users, (users.map Prod.fst).Nodup → (username, u) ∈ users →
      (runLoop ctx users).err = none →
      countDryFor username (runLoop ctx users).outcomes = 1 := by
  intro users
  induction users with
  | nil => intro _ hmem; exact absurd hmem (by simp)
  | cons p rest ih =>
    obtain ⟨v, w⟩ := p
    intro hnodup hmem herr
    simp only [List.map_cons, List.nodup_cons] at hnodup
    simp only [runLoop] at herr ⊢
    cases hp : processOne ctx v w with
    | error e => rw [hp] at herr; simp at herr
    | ok t =>
      obtain ⟨o, s, c⟩ := t
      rw [hp] at herr
      simp only at herr
      rcases List.mem_cons.mp hmem with hhead | htail
      · cases hhead
        obtain ⟨recipient, info, ho⟩ :=
          (processOne_ok_inv hp).2.2.2.2 hdry hkey
        have hz : countDryFor username (runLoop ctx rest).outcomes = 0 :=
          runLoop_dry_count_zero ctx username rest hnodup.1
        simp only [countDryFor, List.filter_cons] at hz ⊢
        simp [ho, isDryFor, hz]
      · have hv : v ≠ username := by
          intro hveq
          subst hveq
          exact hnodup.1 (List.mem_map.mpr ⟨(v, u), htail, rfl⟩)
        have huser := (processOne_ok_inv hp).1
        have hnotdry : isDryFor username o = false := by
          cases hdf : isDryFor username o with
          | false => rfl
          | true => exact absurd (huser ▸ isDryFor_user hdf) hv
        have hrec := ih hnodup.2 htail herr
        simp only [countDryFor, List.filter_cons] at hrec ⊢
        simp [hnotdry, hrec]

/-! ## Claim C1 -/

/-- C1 counterexample: a run over one loaded user whose record has no
email and who has a key, with no test override, ends with an uncaught
`KeyError` and records no outcome at all — there is no
`skipped_no_email` outcome and the batch is aborted, refuting the claim
that the missing email is folded into the report and never propagated. -/
theorem C1_counterexample :
    (send_keys_to_users cfg25 trOk hash0 (.parsed [⟨"alice", "Alice A", none⟩])
        (.dirFound [("alice_private_key", some "KEY")]) none none false).termination
      = .raised "KeyError: email" ∧
    (send_keys_to_users cfg25 trOk hash0 (.parsed [⟨"alice", "Alice A", none⟩])
        (.dirFound [("alice_private_key", some "KEY")]) none none false).outcomes
      = [] := by
  exact ⟨by decide, by decide⟩

/-- C1 amended: when the first user of the loop has a matching key but
no `email` field and no truthy test override is configured, the lookup
`user_info['email']` raises a `KeyError` that aborts the loop — no
outcome is recorded for that user (the code has no `skipped_no_email`
outcome) and the remaining users are never processed. -/
theorem C1_theorem (ctx : RunCtx) (username : String) (u : UserRec)
    (rest : List (String × UserRec))
    (htest : truthyOpt ctx.testEmail = false) (hemail : u.email = none)
    (hkey : (dictLookup ctx.keys username).isSome = true) :
    runLoop ctx ((username, u) :: rest) = ⟨[], 0, 0, some "KeyError: email"⟩ := by
  obtain ⟨k, hk⟩ := Option.isSome_iff_exists.mp hkey
  simp [runLoop, processOne, hk, create_email_content, pyRecipient, htest, hemail,
    Except.map]

/-- C1 witness: the amended theorem applied to a concrete run. -/
theorem C1_witness :
    runLoop ⟨cfg25, trOk, hash0, none, none, false, [("alice", "KEY")]⟩
        [("alice", ⟨"alice", "Alice A", none⟩)]
      = ⟨[], 0, 0, some "KeyError: email"⟩ :=
  C1_theorem _ "alice" _ [] (by decide) rfl (by decide)

/-! ## Claim C2 -/

/-- C2 counterexample: on port 587 with a reachable transport that does
not support STARTTLS, `send_email` reports the delivery as failed and
never reaches `send_message`, refuting the claim that it proceeds to
send the message unencrypted. -/
theorem C2_counterexample :
    (send_email cfg587 trNoTls "dev@example.com").result = false ∧
    (send_email cfg587 trNoTls "dev@example.com").sendAttempted = false := by
  exact ⟨by decide, by decide⟩

/-- C2 amended: on port 25 `send_email` never attempts STARTTLS (and so
sends unencrypted); on any other port STARTTLS is mandatory — when the
transport rejects it the recipient's delivery is reported failed and
the message is not sent. -/
theorem C2_theorem (cfg : SmtpConfig) (t : Transport) (toEmail : String) :
    (cfg.port = 25 → (send_email cfg t toEmail).starttlsAttempted = false) ∧
    (cfg.port ≠ 25 → t.connectOk = true → t.starttlsOk = false →
      send_email cfg t toEmail = ⟨false, true, false, false⟩) := by
  constructor
  · intro hp
    simp only [send_email, hp]
    by_cases hc : t.connectOk <;> simp [hc]
  · intro hp hc hst
    have hbeq : (cfg.port == 25) = false := by simpa using hp
    simp [send_email, hbeq, hc, hst]

/-- C2 witness: the amended theorem applied on both ports. -/
theorem C2_witness :
    send_email cfg587 trNoTls "x@example.com" = ⟨false, true, false, false⟩ ∧
    (send_email cfg25 trOk "x@example.com").starttlsAttempted = false :=
  ⟨(C2_theorem cfg587 trNoTls "x@example.com").2 (by decide) rfl rfl,
   (C2_theorem cfg25 trOk "x@example.com").1 rfl⟩

/-! ## Claim C6 -/

/-- C6 counterexample: an instance record with no `private_ip` key and a
present-but-empty `public_ip` resolves to the empty string, not to the
spec's `"Unknown"` — the second fallback line re-reads `public_ip`
instead of testing it for emptiness. -/
theorem C6_counterexample :
    (mkInstanceInfo ⟨none, none, some "", none, none⟩).ip_address = "" ∧
    specResolveIp ⟨none, none, some "", none, none⟩ = "Unknown" ∧
    (mkInstanceInfo ⟨none, none, some "", none, none⟩).ip_address
      ≠ specResolveIp ⟨none, none, some "", none, none⟩ := by
  exact ⟨by decide, by decide, by decide⟩

/-- C6 amended: the resolved `ip_address` is the private IP when present
and non-empty, otherwise the `public_ip` value whenever that key is
present (even when its value is empty), otherwise `"Unknown"`. -/
theorem C6_theorem (r : InstanceRec) :
    (mkInstanceInfo r).ip_address = resolveIpAmended r := by
  simp only [mkInstanceInfo, resolveIp, resolveIpAmended]
  cases hpriv : r.private_ip with
  | none =>
    cases hpub : r.public_ip with
    | none => simp
    | some p => by_cases hp : p = "" <;> simp [hp]
  | some s =>
    by_cases hs : s = ""
    · cases hpub : r.public_ip with
      | none => simp [hs]
      | some p => simp [hs]
    · simp [hs]

/-! ## Claim C7 -/

/-- C7: with a fixed non-empty instance list (and the code has no
explicit per-user mapping), the fallback assignment is deterministic:
two calls of `get_instance_info_for_user` for the same username over
outputs holding the same ordered instance list return the same
descriptor, and that descriptor is the one selected at index
`hash(username) % len(instances)`. -/
theorem C7_theorem (hashFn : String → Int) (username : String)
    (o1 o2 : TfOutputs) (entries : List InstEntry)
    (h1 : o1.instance_details = some entries) (h2 : o2.instance_details = some entries)
    (hne : entries ≠ []) :
    get_instance_info_for_user hashFn username (some o1)
      = get_instance_info_for_user hashFn username (some o2) ∧
    get_instance_info_for_user hashFn username (some o1)
      = (match entries[pyIndex hashFn username entries.length]? with
         | some (.wf r) => mkInstanceInfo r
         | _ => unknownInstanceInfo) := by
  cases o1
  cases o2
  simp only at h1 h2
  subst h1
  subst h2
  have hemp : entries.isEmpty = false := by
    simpa [List.isEmpty_iff] using hne
  refine ⟨rfl, ?_⟩
  simp only [get_instance_info_for_user, get_instance_info_body, hemp]
  rcases hget : entries[pyIndex hashFn username entries.length]? with _ | e
  · simp
  · cases e <;> simp

/-- C7 witness: determinism at a concrete username and instance list. -/
theorem C7_witness :
    get_instance_info_for_user hash0 "alice" (some ⟨some c7entries⟩)
      = get_instance_info_for_user hash0 "alice" (some ⟨some c7entries⟩) :=
  (C7_theorem hash0 "alice" ⟨some c7entries⟩ ⟨some c7entries⟩ c7entries rfl rfl
    (by decide)).1

/-! ## Claim C9 -/

/-- C9: for every username and every Terraform-outputs value — `None`,
outputs without the `instance_details` key, empty or malformed entries —
`get_instance_info_for_user` is total (its catch-all `except` absorbs
every raising path) and returns a four-field descriptor: either the
`"Unknown"` sentinel or the descriptor built from one of the supplied
well-formed entries. -/
theorem C9_theorem (hashFn : String → Int) (username : String) (tf : Option TfOutputs) :
    get_instance_info_for_user hashFn username tf = unknownInstanceInfo ∨
    ∃ o entries r, tf = some o ∧ o.instance_details = some entries ∧
      InstEntry.wf r ∈ entries ∧
      get_instance_info_for_user hashFn username tf = mkInstanceInfo r := by
  cases tf with
  | none => exact Or.inl rfl
  | some o =>
    cases hdet : o.instance_details with
    | none =>
      left
      simp [get_instance_info_for_user, get_instance_info_body, hdet]
    | some entries =>
      by_cases hemp : entries.isEmpty = true
      · left
        simp [get_instance_info_for_user, get_instance_info_body, hdet, hemp]
      · rw [Bool.not_eq_true] at hemp
        rcases hget : entries[pyIndex hashFn username entries.length]? with _ | e
        · left
          simp [get_instance_info_for_user, get_instance_info_body, hdet, hemp, hget]
        · cases e with
          | malformed =>
            left
            simp [get_instance_info_for_user, get_instance_info_body, hdet, hemp, hget]
          | wf r =>
            right
            refine ⟨o, entries, r, rfl, hdet, ?_, ?_⟩
            · obtain ⟨hlt, he⟩ := List.getElem?_eq_some.mp hget
              exact he ▸ List.getElem_mem hlt
            · simp [get_instance_info_for_user, get_instance_info_body, hdet, hemp, hget]

/-! ## Claim C10 -/

/-- C10 counterexample: for the username `"x_private_key"` the
round-trip fails — `str.replace` removes every occurrence of the
marker, so stripping the attachment filename yields `"x"`, not the
original username. -/
theorem C10_counterexample :
    usernameFromFilename (attachmentFilename "x_private_key") ≠ "x_private_key" ∧
    usernameFromFilename (attachmentFilename "x_private_key") = "x" := by
  exact ⟨by decide, by decide⟩

/-- C10 amended: the attachment filename is always the username followed
by `'_private_key'`, and for every username that does not itself contain
the marker, key discovery's `replace`-based stripping recovers the
original username from the attachment filename. -/
theorem C10_theorem (u : String) (hocc : occursIn PL u.toList = false) :
    attachmentFilename u = u ++ markerStr ∧
    usernameFromFilename (attachmentFilename u) = u := by
  refine ⟨rfl, ?_⟩
  show String.mk (stripMarker (u ++ markerStr).toList) = u
  have h1 : (u ++ markerStr).toList = u.toList ++ PL := String.data_append u markerStr
  rw [h1, stripMarker_append u.toList hocc]
  rfl

/-- C10 witness: the round-trip at the username `"alice"`. -/
theorem C10_witness :
    attachmentFilename "alice" = "alice" ++ markerStr ∧
    usernameFromFilename (attachmentFilename "alice") = "alice" :=
  C10_theorem "alice" (by decide)

/-! ## Pipeline-shape lemmas -/

/-- Complete characterization of a run's report: either a setup exit
with nothing done, or the loop's result over the loaded dicts. -/
theorem send_keys_inv (cfg : SmtpConfig) (t : Transport) (hashFn : String → Int)
    (usersSrc : UsersSource) (keysSrc : KeysSource) (tfSrc : Option TfSource)
    (testEmail : Option String) (dry : Bool) :
    (∃ c, send_keys_to_users cfg t hashFn usersSrc keysSrc tfSrc testEmail dry
        = ⟨0, [], 0, 0, .exited c⟩) ∨
    (∃ users keys,
      load_users usersSrc = .ok users ∧
      load_keys_from_directory keysSrc = .ok keys ∧
      send_keys_to_users cfg t hashFn usersSrc keysSrc tfSrc testEmail dry
        = ⟨(runLoop ⟨cfg, t, hashFn, tfSrc.bind get_terraform_outputs, testEmail, dry, keys⟩
              users).transportCalls,
           (runLoop ⟨cfg, t, hashFn, tfSrc.bind get_terraform_outputs, testEmail, dry, keys⟩
              users).outcomes,
           (runLoop ⟨cfg, t, hashFn, tfSrc.bind get_terraform_outputs, testEmail, dry, keys⟩
              users).successCount,
           users.length,
           match (runLoop ⟨cfg, t, hashFn, tfSrc.bind get_terraform_outputs, testEmail, dry,
              keys⟩ users).err with
           | some e => .raised e
           | none =>
             .completed
               ((runLoop ⟨cfg, t, hashFn, tfSrc.bind get_terraform_outputs, testEmail, dry,
                   keys⟩ users).successCount == users.length)⟩) := by
  cases hu : load_users usersSrc with
  | error c =>
    left
    exact ⟨c, by simp [send_keys_to_users, hu]⟩
  | ok users =>
    cases hk : load_keys_from_directory keysSrc with
    | error c =>
      left
      exact ⟨c, by simp [send_keys_to_users, hu, hk]⟩
    | ok keys =>
      right
      refine ⟨users, keys, rfl, rfl, ?_⟩
      simp only [send_keys_to_users, hu, hk]
      cases herr : (runLoop ⟨cfg, t, hashFn, tfSrc.bind get_terraform_outputs,
          testEmail, dry, keys⟩ users).err <;> simp [herr]

/-- With no parsed Terraform outputs every recorded instance dict is the
sentinel. -/
theorem runLoop_info_unknown (ctx : RunCtx) (htf : ctx.tf = none) :
    ∀ users, ∀ o ∈ (runLoop ctx users).outcomes,
      outcomeInfo o = none ∨ outcomeInfo o = some unknownInstanceInfo := by
  intro users
  induction users with
  | nil => intro o ho; simp [runLoop] at ho
  | cons p rest ih =>
    obtain ⟨username, u⟩ := p
    intro o ho
    simp only [runLoop] at ho
    cases hp : processOne ctx username u with
    | error e => rw [hp] at ho; simp at ho
    | ok v =>
      obtain ⟨o2, s, c⟩ := v
      rw [hp] at ho
      simp only [List.mem_cons] at ho
      rcases ho with rfl | ho
      · have hinfo := (processOne_ok_inv hp).2.2.2.1
        rw [htf] at hinfo
        exact hinfo
      · exact ih o ho

/-! ## Claim C3 -/

/-- C3 counterexample: two loaded users, only `alice` has a key; the dry
run gives `Sent + DryRun = 1`, equal to the number of users with keys,
yet `send_keys_to_users` returns `False` because it compares
`success_count` against `len(users)` — all loaded users, not users with
keys — refuting the claimed equivalence. -/
theorem C3_counterexample :
    countSentOrDry
        (send_keys_to_users cfg25 trOk hash0
          (.parsed [⟨"alice", "Alice A", some "a@x.com"⟩, ⟨"bob", "Bob B", some "b@x.com"⟩])
          (.dirFound [("alice_private_key", some "KA")]) none none true).outcomes
      = usersWithKeyCount
          [("alice", ⟨"alice", "Alice A", some "a@x.com"⟩),
           ("bob", ⟨"bob", "Bob B", some "b@x.com"⟩)]
          [("alice", "KA")] ∧
    (send_keys_to_users cfg25 trOk hash0
        (.parsed [⟨"alice", "Alice A", some "a@x.com"⟩, ⟨"bob", "Bob B", some "b@x.com"⟩])
        (.dirFound [("alice_private_key", some "KA")]) none none true).termination
      = .completed false := by
  exact ⟨by decide, by decide⟩

/-- C3 amended: for a run that completes, the batch result is `True`
iff `Sent + DryRun` equals the total number of loaded users — users
without keys (and every other non-Sent/DryRun outcome) count against
success, not only users with keys. -/
theorem C3_theorem (cfg : SmtpConfig) (t : Transport) (hashFn : String → Int)
    (usersSrc : UsersSource) (keysSrc : KeysSource) (tfSrc : Option TfSource)
    (testEmail : Option String) (dry : Bool) (flag : Bool)
    (hterm : (send_keys_to_users cfg t hashFn usersSrc keysSrc tfSrc testEmail dry).termination
      = .completed flag) :
    flag = true ↔
      countSentOrDry
          (send_keys_to_users cfg t hashFn usersSrc keysSrc tfSrc testEmail dry).outcomes
        = (send_keys_to_users cfg t hashFn usersSrc keysSrc tfSrc testEmail dry).totalCount := by
  rcases send_keys_inv cfg t hashFn usersSrc keysSrc tfSrc testEmail dry with
    ⟨c, hrep⟩ | ⟨users, keys, hu, hk, hrep⟩
  · rw [hrep] at hterm
    exact absurd hterm (by simp)
  · rw [hrep] at hterm ⊢
    dsimp only at hterm ⊢
    cases herr : (runLoop ⟨cfg, t, hashFn, tfSrc.bind get_terraform_outputs,
        testEmail, dry, keys⟩ users).err with
    | some e => rw [herr] at hterm; simp at hterm
    | none =>
      rw [herr] at hterm
      simp only [Termination.completed.injEq] at hterm
      subst hterm
      rw [runLoop_success_counts ⟨cfg, t, hashFn, tfSrc.bind get_terraform_outputs,
        testEmail, dry, keys⟩ users herr]
      exact beq_iff_eq

/-- C3 witness: a completed single-user dry run where the equivalence is
exercised in the forward direction. -/
theorem C3_witness :
    countSentOrDry (send_keys_to_users cfg25 trOk hash0 c3wUsers c3wKeys none none true).outcomes
      = (send_keys_to_users cfg25 trOk hash0 c3wUsers c3wKeys none none true).totalCount :=
  (C3_theorem cfg25 trOk hash0 c3wUsers c3wKeys none none true true (by decide)).mp rfl

/-! ## Claim C4 -/

/-- C4: when the Terraform step is configured but its invocation fails
or its output is malformed JSON, `get_terraform_outputs` yields `None`,
the run behaves exactly as if no Terraform directory had been given
(so it still completes exactly as that run does), and every instance
descriptor recorded in any outcome is the all-`"Unknown"` sentinel. -/
theorem C4_theorem (src : TfSource) (hsrc : src = .cmdError ∨ src = .jsonError)
    (cfg : SmtpConfig) (t : Transport) (hashFn : String → Int)
    (usersSrc : UsersSource) (keysSrc : KeysSource)
    (testEmail : Option String) (dry : Bool) :
    get_terraform_outputs src = none ∧
    send_keys_to_users cfg t hashFn usersSrc keysSrc (some src) testEmail dry
      = send_keys_to_users cfg t hashFn usersSrc keysSrc none testEmail dry ∧
    ∀ o ∈ (send_keys_to_users cfg t hashFn usersSrc keysSrc (some src) testEmail dry).outcomes,
      outcomeInfo o = none ∨ outcomeInfo o = some unknownInstanceInfo := by
  have hnone : get_terraform_outputs src = none := by
    rcases hsrc with h | h <;> subst h <;> rfl
  have hb : (some src).bind get_terraform_outputs = (none : Option TfOutputs) := hnone
  refine ⟨hnone, ?_, ?_⟩
  · unfold send_keys_to_users
    simp only [hb, Option.none_bind]
  · intro o ho
    rcases send_keys_inv cfg t hashFn usersSrc keysSrc (some src) testEmail dry with
      ⟨c, hrep⟩ | ⟨users, keys, hu, hk, hrep⟩
    · rw [hrep] at ho
      simp at ho
    · rw [hrep] at ho
      exact runLoop_info_unknown
        ⟨cfg, t, hashFn, (some src).bind get_terraform_outputs, testEmail, dry, keys⟩
        hb users o ho

/-- C4 witness: the theorem at a failing invocation and a concrete run. -/
theorem C4_witness :
    get_terraform_outputs TfSource.cmdError = none ∧
    send_keys_to_users cfg25 trOk hash0 c3wUsers c3wKeys (some .cmdError) none true
      = send_keys_to_users cfg25 trOk hash0 c3wUsers c3wKeys none none true :=
  ⟨(C4_theorem .cmdError (Or.inl rfl) cfg25 trOk hash0 c3wUsers c3wKeys none true).1,
   (C4_theorem .cmdError (Or.inl rfl) cfg25 trOk hash0 c3wUsers c3wKeys none true).2.1⟩

/-! ## Claim C5 -/

/-- C5 counterexample: `alice` is in both dicts with a resolvable email,
the run is a dry run, yet she gets zero dry-run outcomes because the
loop aborts first on `bob`, whose record has a key but no email — so
the claim's per-eligible-user guarantee fails as stated. -/
theorem C5_counterexample :
    ("alice", (⟨"alice", "Alice A", some "a@x.com"⟩ : UserRec)) ∈ c5users ∧
    (dictLookup c5keys "alice").isSome = true ∧
    countDryFor "alice" (runLoop c5ctx c5users).outcomes = 0 ∧
    (runLoop c5ctx c5users).err = some "KeyError: email" := by
  exact ⟨by decide, by decide, by decide, by decide⟩

/-- C5 amended: in dry-run mode the transport is never invoked, and
provided the loop completes without an uncaught exception (in
particular, every keyed user before this one resolved a recipient),
each username present in both dicts produces exactly one dry-run
outcome. -/
theorem C5_theorem (ctx : RunCtx) (hdry : ctx.dry = true)
    (username : String) (u : UserRec) (users : List (String × UserRec))
    (hnodup : (users.map Prod.fst).Nodup) (hmem : (username, u) ∈ users)
    (hkey : (dictLookup ctx.keys username).isSome = true) :
    ((runLoop ctx users).err = none →
      countDryFor username (runLoop ctx users).outcomes = 1) ∧
    (runLoop ctx users).transportCalls = 0 :=
  ⟨fun herr => runLoop_dry_count_one ctx hdry username u hkey users hnodup hmem herr,
   runLoop_dry_calls ctx hdry users⟩

/-- C5 witness: the amended theorem at a concrete eligible user. -/
theorem C5_witness :
    countDryFor "alice"
        (runLoop ⟨cfg25, trOk, hash0, none, none, true, [("alice", "K")]⟩
          [("alice", ⟨"alice", "Alice A", some "a@x.com"⟩)]).outcomes = 1 ∧
    (runLoop ⟨cfg25, trOk, hash0, none, none, true, [("alice", "K")]⟩
        [("alice", ⟨"alice", "Alice A", some "a@x.com"⟩)]).transportCalls = 0 := by
  have h := C5_theorem ⟨cfg25, trOk, hash0, none, none, true, [("alice", "K")]⟩ rfl
    "alice" ⟨"alice", "Alice A", some "a@x.com"⟩
    [("alice", ⟨"alice", "Alice A", some "a@x.com"⟩)]
    (by simp) (by simp) (by decide)
  exact ⟨h.1 (by decide), h.2⟩

/-! ## Claim C8 -/

/-- C8: each fatal setup condition — users file missing or unparsable,
keys directory missing, or zero keys discovered in a valid directory —
makes the run exit with a non-zero status having made no `send_email`
call and recorded no outcome, i.e. before any delivery was attempted. -/
theorem C8_theorem (cfg : SmtpConfig) (t : Transport) (hashFn : String → Int)
    (usersSrc : UsersSource) (keysSrc : KeysSource) (tfSrc : Option TfSource)
    (testEmail : Option String) (dry : Bool)
    (hfatal : usersSrc = .missing ∨ usersSrc = .unparsable ∨ keysSrc = .dirMissing ∨
      (∃ files, keysSrc = .dirFound files ∧ discoverKeys files = [])) :
    exitCode (send_keys_to_users cfg t hashFn usersSrc keysSrc tfSrc testEmail dry) ≠ 0 ∧
    (send_keys_to_users cfg t hashFn usersSrc keysSrc tfSrc testEmail dry).transportCalls = 0 ∧
    (send_keys_to_users cfg t hashFn usersSrc keysSrc tfSrc testEmail dry).outcomes = [] := by
  rcases hfatal with h | h | h | ⟨files, h, hdisc⟩
  · subst h
    exact ⟨Nat.one_ne_zero, rfl, rfl⟩
  · subst h
    exact ⟨Nat.one_ne_zero, rfl, rfl⟩
  · subst h
    cases usersSrc <;> exact ⟨Nat.one_ne_zero, rfl, rfl⟩
  · subst h
    cases usersSrc with
    | missing => exact ⟨Nat.one_ne_zero, rfl, rfl⟩
    | unparsable => exact ⟨Nat.one_ne_zero, rfl, rfl⟩
    | parsed recs =>
      have hk : load_keys_from_directory (.dirFound files) = .error 1 := by
        simp [load_keys_from_directory, hdisc]
      refine ⟨?_, ?_, ?_⟩ <;>
        simp [send_keys_to_users, load_users, hk, exitCode]

/-- C8 witness: a run with a missing users file. -/
theorem C8_witness :
    exitCode (send_keys_to_users cfg25 trOk hash0 .missing (.dirFound []) none none false) ≠ 0 ∧
    (send_keys_to_users cfg25 trOk hash0 .missing (.dirFound []) none none false).transportCalls
      = 0 ∧
    (send_keys_to_users cfg25 trOk hash0 .missing (.dirFound []) none none false).outcomes
      = [] :=
  C8_theorem cfg25 trOk hash0 .missing (.dirFound []) none none false (Or.inl rfl)

end SendKeys
